import Mathlib

/-
Shallow embedding of `src/connector.py` (class `CSVConnector`), a pandas-backed
CSV table store, together with proofs about its operations.

Modelling decisions, mirroring the source:
* A pandas `DataFrame` is a column list plus a list of labelled rows
  `(label, values)`; the label is the pandas row index, the values are in
  column order.
* The backing CSV file is modelled at the record level: a list of records,
  each record a list of field strings (the first record is the header).
  This matches `to_csv(index=False)` / `read_csv` up to CSV quoting, which
  is inverse to itself and irrelevant to the properties proved here.
* Scalar cell values are modelled by `Value` (strings, integers, booleans).
* `read_csv` dtype inference is modelled per column on a fragment of the
  field language (integer literals, the boolean literals written by the
  program, and text that reads as none of a number, an NA value, an
  infinity or a boolean variant): a column whose fields all parse as
  integers becomes an integer column, else all-boolean-literal becomes a
  boolean column, else the fields stay strings.  Float and NA inference
  lie outside the fragment and outside the model; the round-trip theorem
  is guarded so it never applies to such fields.
* Each method of the class becomes a function from a `Store` (in-memory
  frame plus on-disk file) to a new `Store` and an `Except` result; raising
  an exception is modelled by returning `.error` together with the store
  state the exception leaves behind.
-/

set_option autoImplicit false

deriving instance DecidableEq for Except

namespace CsvDb

/-- A scalar cell value: string, integer or boolean. -/
inductive Value where
  | str (s : String)
  | int (n : Int)
  | bool (b : Bool)
deriving DecidableEq

/-- A pandas row: its index label and its values in column order. -/
abbrev Row := Int × List Value

/-- The in-memory pandas `DataFrame` held in `self.__df`. -/
structure DataFrame where
  cols : List String
  rows : List Row
deriving DecidableEq

/-- The labels of the row index of the frame, `self.__df.index.to_list()`. -/
def labels (df : DataFrame) : List Int := df.rows.map Prod.fst

/-- The state of a `CSVConnector`: the in-memory frame and the backing file. -/
structure Store where
  df : DataFrame
  file : List (List String)
deriving DecidableEq

/-- The Python exceptions the connector raises, under the names used by the spec. -/
inductive DBError where
  | notFound
  | schemaMismatch
  | emptyTable
  | indexOutOfRange (i : Int)
  | keyNotFound (k : String)
deriving DecidableEq

/-- Rendering of the modelled scalars by `str(value)`, as `to_csv` writes them. -/
def encodeVal : Value → String
  | .str s => s
  | .int n => toString n
  | .bool b => if b then "True" else "False"

/-- Model of `self.__df.to_csv(self.__csv, index=False)` (`__write_csv`; the `mode`
parameter is always left at its default "w" by the class): the header
record followed by one record per row, values rendered by `str`. -/
def writeCsv (df : DataFrame) : List (List String) :=
  df.cols :: df.rows.map (fun r => r.2.map encodeVal)

/-- Method `CSVConnector.read`: returns a copy of the frame; copies are value-equal,
so the copy is modelled as the frame itself. -/
def read (df : DataFrame) : DataFrame := df

/-- Python `==` on the modelled scalars, as applied elementwise by
`self.__df[key] == value`: equality never holds across strings and numbers,
while booleans compare equal to their numeric values. -/
def pyEq : Value → Value → Bool
  | .str a, .str b => decide (a = b)
  | .int a, .int b => decide (a = b)
  | .bool a, .bool b => decide (a = b)
  | .bool a, .int b => decide ((if a then (1 : Int) else 0) = b)
  | .int a, .bool b => decide (a = (if b then (1 : Int) else 0))
  | _, _ => false

/-- Position of column `key` in the column list (pandas aligns by name). -/
def colIndex (df : DataFrame) (k : String) : Nat := df.cols.indexOf k

/-- The value of row `r` at column `k` of frame `df`. -/
def cellVal (df : DataFrame) (r : Row) (k : String) : Value :=
  r.2.getD (colIndex df k) (Value.str "")

/-- Method `CSVConnector.get_filtered_dataframe_with_key`:
`self.__df[(self.__df[key] == value)].copy()`.  Looking up an absent column
raises `KeyError`; otherwise the boolean mask keeps exactly the rows whose
value at `key` compares `==` to `value`, labels untouched. -/
def get_filtered_dataframe_with_key (df : DataFrame) (key : String) (v : Value) :
    Except DBError DataFrame :=
  if key ∈ df.cols then
    .ok ⟨df.cols, df.rows.filter (fun r => pyEq (cellVal df r key) v)⟩
  else .error (.keyNotFound key)

/-- The filter method at store level: it mutates nothing and writes nothing. -/
def filterRun (s : Store) (key : String) (v : Value) :
    Store × Except DBError DataFrame :=
  (s, get_filtered_dataframe_with_key s.df key v)

/-- First value bound to key `k` in a keyword-argument list (Python keyword
arguments have pairwise distinct keys). -/
def lookupKey (k : String) : List (String × Value) → Option Value
  | [] => none
  | (k', v) :: rest => if k' = k then some v else lookupKey k rest

/-- The check `set(key_and_values.keys()) == set(self.__df.columns.to_list())`. -/
def keySetEq (ks cols : List String) : Bool :=
  ks.all (fun k => decide (k ∈ cols)) && cols.all (fun c => decide (c ∈ ks))

/-- Relabelling rows 0,1,2,... as `ignore_index=True` / `reset_index` do. -/
def relabel (vals : List (List Value)) : List Row :=
  ((List.range vals.length).map Int.ofNat).zip vals

/-- Method `CSVConnector.register` on the frame: raise `ValueError` (called
`SchemaMismatchError` by the spec) unless the supplied key set equals the
column set; otherwise build a one-row frame from the keyword arguments and
`pd.concat([self.__df, new_row], ignore_index=True)`, which aligns the
values of the new row to the existing column order and renumbers labels
0,1,2,... -/
def register (df : DataFrame) (fields : List (String × Value)) :
    Except DBError DataFrame :=
  if keySetEq (fields.map Prod.fst) df.cols then
    let newRow : List Value :=
      df.cols.map (fun c => (lookupKey c fields).getD (Value.str ""))
    .ok ⟨df.cols, relabel (df.rows.map Prod.snd ++ [newRow])⟩
  else .error .schemaMismatch

/-- Method `register` at store level: on success the whole table is written back to
the file and a copy of the frame is returned; on failure the store is left
as it was. -/
def registerRun (s : Store) (fields : List (String × Value)) :
    Store × Except DBError DataFrame :=
  match register s.df fields with
  | .ok df' => (⟨df', writeCsv df'⟩, .ok df')
  | .error e => (s, .error e)

/-- The `for idx in row_index: self.__df.drop(idx, inplace=True)` loop of
`CSVConnector.delete`: each `drop` removes the rows carrying that label and
raises `KeyError` when the label is absent, leaving the earlier removals of
the same call in place.  Returns the rows as the loop leaves them, plus the
offending label when a `KeyError` was raised. -/
def dropLoop : List Row → List Int → List Row × Option Int
  | rows, [] => (rows, none)
  | rows, i :: rest =>
    if rows.any (fun r => decide (r.1 = i)) then
      dropLoop (rows.filter (fun r => decide (¬ r.1 = i))) rest
    else (rows, some i)

/-- Method `CSVConnector.delete`: drop each requested label in order; a `KeyError`
is re-raised as `IndexError` (called `IndexOutOfRangeError` by the spec) naming the
offending index, with the file not rewritten; on success the index is reset
to 0,1,2,... and the file rewritten. -/
def deleteRun (s : Store) (idxs : List Int) : Store × Except DBError DataFrame :=
  match dropLoop s.df.rows idxs with
  | (rows', some i) => (⟨⟨s.df.cols, rows'⟩, s.file⟩, .error (.indexOutOfRange i))
  | (rows', none) =>
    let df' : DataFrame := ⟨s.df.cols, relabel (rows'.map Prod.snd)⟩
    (⟨df', writeCsv df'⟩, .ok df')

/-- Minimum of a list of labels, `min(idx)` on a nonempty list. -/
def listMin : List Int → Int
  | [] => 0
  | x :: xs => xs.foldl min x

/-- Maximum of a list of labels, `max(idx)` on a nonempty list. -/
def listMax : List Int → Int
  | [] => 0
  | x :: xs => xs.foldl max x

/-- The assignment `self.__df.loc[row_index, key] = value`: every row labelled `row_index`
gets its value at column `key` replaced.  (When the label is absent, pandas
`.loc` would instead enlarge the frame; that state is unreachable here
because every operation leaves the labels 0,1,...,n-1, and `update` is only
called below the current maximum label.) -/
def setCell (df : DataFrame) (i : Int) (k : String) (v : Value) : DataFrame :=
  ⟨df.cols, df.rows.map (fun r =>
    if r.1 = i then (r.1, r.2.set (colIndex df k) v) else r)⟩

/-- Method `CSVConnector.update`: raise `ValueError` (called `EmptyTableError` by the spec)
on an empty frame, then `IndexError` (`IndexOutOfRangeError`) when the row
index is outside `[min(idx), max(idx)]`, then `KeyError`
(`KeyNotFoundError`) when the key is not a column; otherwise replace the
cell, rewrite the file and return a copy of the frame. -/
def updateRun (s : Store) (row_index : Int) (key : String) (v : Value) :
    Store × Except DBError DataFrame :=
  if (labels s.df).length = 0 then (s, .error .emptyTable)
  else if ¬ (listMin (labels s.df) ≤ row_index ∧
      row_index ≤ listMax (labels s.df)) then
    (s, .error (.indexOutOfRange row_index))
  else if key ∉ s.df.cols then (s, .error (.keyNotFound key))
  else
    (⟨setCell s.df row_index key v, writeCsv (setCell s.df row_index key v)⟩,
     .ok (setCell s.df row_index key v))

/-! ### Helper lemmas -/

theorem relabel_length (vals : List (List Value)) :
    (relabel vals).length = vals.length := by
  simp [relabel]

theorem relabel_map_fst (vals : List (List Value)) :
    (relabel vals).map Prod.fst = (List.range vals.length).map Int.ofNat := by
  unfold relabel
  exact List.map_fst_zip _ _ (by simp)

theorem relabel_map_snd (vals : List (List Value)) :
    (relabel vals).map Prod.snd = vals := by
  unfold relabel
  exact List.map_snd_zip _ _ (by simp)

theorem zip_fst_snd (l : List Row) :
    (l.map Prod.fst).zip (l.map Prod.snd) = l := by
  have h := List.zip_unzip l
  rwa [List.unzip_eq_map] at h

theorem pyEq_refl (v : Value) : pyEq v v = true := by
  cases v <;> simp [pyEq]

theorem keySetEq_eq_true_iff (ks cols : List String) :
    keySetEq ks cols = true ↔ ((∀ k ∈ ks, k ∈ cols) ∧ (∀ c ∈ cols, c ∈ ks)) := by
  simp [keySetEq, List.all_eq_true]

theorem lookupKey_eq_some_of_mem {fields : List (String × Value)} {k : String}
    {v : Value} (hnd : (fields.map Prod.fst).Nodup) (hmem : (k, v) ∈ fields) :
    lookupKey k fields = some v := by
  induction fields with
  | nil => cases hmem
  | cons p rest ih =>
    obtain ⟨k', v'⟩ := p
    simp only [List.map_cons, List.nodup_cons] at hnd
    rcases List.mem_cons.mp hmem with heq | hmem'
    · obtain ⟨rfl, rfl⟩ := Prod.mk.injEq .. ▸ heq
      simp [lookupKey]
    · have hne : k' ≠ k := by
        intro heq
        subst heq
        exact hnd.1 (List.mem_map.mpr ⟨(k', v), hmem', rfl⟩)
      simpa [lookupKey, hne] using ih hnd.2 hmem'

theorem mem_of_lookupKey_eq_some {fields : List (String × Value)} {k : String}
    {v : Value} (h : lookupKey k fields = some v) : (k, v) ∈ fields := by
  induction fields with
  | nil => simp [lookupKey] at h
  | cons p rest ih =>
    obtain ⟨k', v'⟩ := p
    by_cases hk : k' = k
    · subst hk
      simp [lookupKey] at h
      simp [h]
    · simp only [lookupKey, if_neg hk] at h
      exact List.mem_cons_of_mem _ (ih h)

theorem lookupKey_isSome_of_mem {fields : List (String × Value)} {k : String}
    (h : k ∈ fields.map Prod.fst) : ∃ v, lookupKey k fields = some v := by
  induction fields with
  | nil => simp at h
  | cons p rest ih =>
    obtain ⟨k', v'⟩ := p
    by_cases hk : k' = k
    · exact ⟨v', by simp [lookupKey, hk]⟩
    · simp only [List.map_cons, List.mem_cons] at h
      rcases h with rfl | h'
      · exact absurd rfl hk
      · simpa [lookupKey, hk] using ih h'

theorem foldl_min_le_init (l : List Int) (a : Int) : l.foldl min a ≤ a := by
  induction l generalizing a with
  | nil => simp
  | cons b t ih =>
    exact le_trans (ih (min a b)) (min_le_left a b)

theorem foldl_min_le_mem (l : List Int) (a x : Int) (hx : x ∈ l) :
    l.foldl min a ≤ x := by
  induction l generalizing a with
  | nil => cases hx
  | cons b t ih =>
    rcases List.mem_cons.mp hx with rfl | hx'
    · exact le_trans (foldl_min_le_init t (min a x)) (min_le_right a x)
    · exact ih (min a b) hx'

theorem listMin_le_of_mem {l : List Int} {x : Int} (hx : x ∈ l) :
    listMin l ≤ x := by
  cases l with
  | nil => cases hx
  | cons a t =>
    rcases List.mem_cons.mp hx with rfl | h
    · exact foldl_min_le_init t x
    · exact foldl_min_le_mem t a x h

theorem le_foldl_max_init (l : List Int) (a : Int) : a ≤ l.foldl max a := by
  induction l generalizing a with
  | nil => simp
  | cons b t ih =>
    exact le_trans (le_max_left a b) (ih (max a b))

theorem le_foldl_max_mem (l : List Int) (a x : Int) (hx : x ∈ l) :
    x ≤ l.foldl max a := by
  induction l generalizing a with
  | nil => cases hx
  | cons b t ih =>
    rcases List.mem_cons.mp hx with rfl | hx'
    · exact le_trans (le_max_right a x) (le_foldl_max_init t (max a x))
    · exact ih (max a b) hx'

theorem le_listMax_of_mem {l : List Int} {x : Int} (hx : x ∈ l) :
    x ≤ listMax l := by
  cases l with
  | nil => cases hx
  | cons a t =>
    rcases List.mem_cons.mp hx with rfl | h
    · exact le_foldl_max_init t x
    · exact le_foldl_max_mem t a x h

theorem dropLoop_single_mem (rows : List Row) (i : Int)
    (hi : i ∈ rows.map Prod.fst) :
    dropLoop rows [i] = (rows.filter (fun r => decide (¬ r.1 = i)), none) := by
  have hany : rows.any (fun r => decide (r.1 = i)) = true := by
    rcases List.mem_map.mp hi with ⟨r, hr, hfst⟩
    exact List.any_eq_true.mpr ⟨r, hr, by simp [hfst]⟩
  simp [dropLoop, hany]

theorem dropLoop_err_of_absent :
    ∀ (idxs : List Int) (rows : List Row),
      (∃ i ∈ idxs, i ∉ rows.map Prod.fst) →
      ∃ j ∈ idxs, (dropLoop rows idxs).2 = some j := by
  intro idxs
  induction idxs with
  | nil =>
    rintro rows ⟨i, hi, -⟩
    cases hi
  | cons a rest ih =>
    rintro rows ⟨i, hi, habs⟩
    by_cases ha : rows.any (fun r => decide (r.1 = a)) = true
    · rcases List.mem_cons.mp hi with rfl | hrest
      · exfalso
        rcases List.any_eq_true.mp ha with ⟨r, hr, hra⟩
        simp only [decide_eq_true_eq] at hra
        exact habs (List.mem_map.mpr ⟨r, hr, hra⟩)
      · have habs' : i ∉ (rows.filter (fun r => decide (¬ r.1 = a))).map Prod.fst := by
          intro hm
          rcases List.mem_map.mp hm with ⟨r, hr, hfst⟩
          exact habs (List.mem_map.mpr ⟨r, List.mem_of_mem_filter hr, hfst⟩)
        rcases ih _ ⟨i, hrest, habs'⟩ with ⟨j, hj, hres⟩
        refine ⟨j, List.mem_cons_of_mem _ hj, ?_⟩
        simpa [dropLoop, ha] using hres
    · exact ⟨a, List.mem_cons_self a rest, by simp [dropLoop, ha]⟩

theorem length_filter_ne_of_nodup (rows : List Row) (i : Int)
    (hnd : (rows.map Prod.fst).Nodup) (hi : i ∈ rows.map Prod.fst) :
    (rows.filter (fun r => decide (¬ r.1 = i))).length + 1 = rows.length := by
  induction rows with
  | nil => cases hi
  | cons r t iht =>
    simp only [List.map_cons, List.nodup_cons] at hnd
    by_cases hr : r.1 = i
    · have hkeep : t.filter (fun x => decide (¬ x.1 = i)) = t := by
        apply List.filter_eq_self.mpr
        intro x hx
        simp only [decide_eq_true_eq]
        intro hxi
        exact hnd.1 (hr ▸ hxi ▸ List.mem_map.mpr ⟨x, hx, rfl⟩)
      rw [List.filter_cons_of_neg (by simp [hr]), hkeep]
      simp
    · have hit : i ∈ t.map Prod.fst := by
        rcases List.mem_cons.mp hi with heq | h
        · exact absurd heq.symm hr
        · exact h
      rw [List.filter_cons_of_pos (by simp [hr])]
      have h := iht hnd.2 hit
      simp only [List.length_cons]
      omega

theorem snd_not_mem_filter (rows : List Row) (i : Int) (r₀ : Row)
    (hsnd : (rows.map Prod.snd).Nodup) (hr₀ : r₀ ∈ rows) (hl : r₀.1 = i) :
    r₀.2 ∉ (rows.filter (fun r => decide (¬ r.1 = i))).map Prod.snd := by
  intro hmem
  rcases List.mem_map.mp hmem with ⟨r', hr', hsndEq⟩
  have hpred := List.of_mem_filter hr'
  have hr'mem := List.mem_of_mem_filter hr'
  have heq : r' = r₀ := List.inj_on_of_nodup_map hsnd hr'mem hr₀ hsndEq
  simp only [decide_eq_true_eq] at hpred
  exact hpred (heq ▸ hl ▸ (heq ▸ rfl))

/-! ### Claim theorems -/

/-- C3: `update(rowIndex, columnName, value)` fails with `EmptyTableError`
whenever the table has zero rows, regardless of the other arguments;
otherwise it fails with `IndexOutOfRangeError` when `rowIndex` is outside
the inclusive range from the minimum to the maximum current row identifier;
otherwise it fails with `KeyNotFoundError` when `columnName` is not a
column; the checks are applied in that order, and in each case the store is
left unchanged. -/
theorem update_error_order (s : Store) (i : Int) (k : String) (v : Value) :
    (s.df.rows.length = 0 → updateRun s i k v = (s, Except.error DBError.emptyTable)) ∧
    (s.df.rows.length ≠ 0 →
      ¬ (listMin (labels s.df) ≤ i ∧ i ≤ listMax (labels s.df)) →
      updateRun s i k v = (s, Except.error (DBError.indexOutOfRange i))) ∧
    (s.df.rows.length ≠ 0 →
      (listMin (labels s.df) ≤ i ∧ i ≤ listMax (labels s.df)) →
      k ∉ s.df.cols →
      updateRun s i k v = (s, Except.error (DBError.keyNotFound k))) := by
  refine ⟨fun h0 => ?_, fun h0 hrange => ?_, fun h0 hrange hk => ?_⟩
  · simp [updateRun, labels, h0]
  · simp only [labels] at hrange
    simp [updateRun, labels, h0, hrange]
  · simp only [labels] at hrange
    simp [updateRun, labels, h0, hrange, hrange.1, hrange.2, hk]

theorem update_error_order_witness :
    updateRun ⟨⟨["a"], [((0 : Int), [Value.int 3])]⟩, [["a"], ["3"]]⟩ (-1) "a" (Value.int 1)
      = (⟨⟨["a"], [((0 : Int), [Value.int 3])]⟩, [["a"], ["3"]]⟩,
         Except.error (DBError.indexOutOfRange (-1))) :=
  (update_error_order ⟨⟨["a"], [((0 : Int), [Value.int 3])]⟩, [["a"], ["3"]]⟩
    (-1) "a" (Value.int 1)).2.1 (by decide) (by decide)

/-- C5: `insert` (`register`) fails with `SchemaMismatchError` whenever the
set of supplied field names is not exactly the column set, and on such a
failure both the in-memory table and the backing file are unchanged. -/
theorem register_schema_mismatch (s : Store) (fields : List (String × Value))
    (h : ¬ ∀ x, (x ∈ fields.map Prod.fst ↔ x ∈ s.df.cols)) :
    registerRun s fields = (s, Except.error DBError.schemaMismatch) := by
  have hk : keySetEq (fields.map Prod.fst) s.df.cols = false := by
    rcases hb : keySetEq (fields.map Prod.fst) s.df.cols with _ | _
    · rfl
    · exfalso
      rcases (keySetEq_eq_true_iff _ _).mp hb with ⟨h1, h2⟩
      exact h (fun x => ⟨fun hx => h1 x hx, fun hx => h2 x hx⟩)
  simp [registerRun, register, hk]

theorem register_schema_mismatch_witness :
    registerRun ⟨⟨["a"], []⟩, [["a"]]⟩ [("b", Value.int 3)]
      = (⟨⟨["a"], []⟩, [["a"]]⟩, Except.error DBError.schemaMismatch) :=
  register_schema_mismatch ⟨⟨["a"], []⟩, [["a"]]⟩ [("b", Value.int 3)]
    (by
      intro hall
      have hb : "b" ∈ ["a"] := (hall "b").mp (by simp)
      simp at hb)

/-- C2: for a row identifier `i` present in the table, `delete(i)` succeeds,
reduces the row count by 1, renumbers the remaining labels to the
contiguous range 0,...,row_count-1, rewrites the full backing file, and
returns the updated table, in which every remaining row comes from a row
other than the deleted one; with no duplicate rows, the content of the
deleted row no longer appears. -/
theorem delete_single (s : Store) (i : Int)
    (hnd : (labels s.df).Nodup) (hi : i ∈ labels s.df) :
    ∃ df', deleteRun s [i] = (⟨df', writeCsv df'⟩, Except.ok df') ∧
      df'.cols = s.df.cols ∧
      df'.rows.length + 1 = s.df.rows.length ∧
      df'.rows.map Prod.fst = (List.range df'.rows.length).map Int.ofNat ∧
      (∀ vs ∈ df'.rows.map Prod.snd, ∃ r ∈ s.df.rows, r.1 ≠ i ∧ r.2 = vs) ∧
      ((s.df.rows.map Prod.snd).Nodup →
        ∀ r ∈ s.df.rows, r.1 = i → r.2 ∉ df'.rows.map Prod.snd) := by
  refine ⟨⟨s.df.cols, relabel
      ((s.df.rows.filter (fun r => decide (¬ r.1 = i))).map Prod.snd)⟩,
    ?_, rfl, ?_, ?_, ?_, ?_⟩
  · unfold deleteRun
    rw [dropLoop_single_mem s.df.rows i hi]
  · simp only [relabel_length, List.length_map]
    exact length_filter_ne_of_nodup s.df.rows i hnd hi
  · rw [relabel_map_fst, relabel_length]
  · intro vs hvs
    rw [relabel_map_snd] at hvs
    rcases List.mem_map.mp hvs with ⟨r, hr, hsnd⟩
    exact ⟨r, List.mem_of_mem_filter hr,
      by simpa using List.of_mem_filter hr, hsnd⟩
  · intro hsnds r hr hri
    rw [relabel_map_snd]
    exact snd_not_mem_filter s.df.rows i r hsnds hr hri

theorem delete_single_witness :
    ∃ d, deleteRun ⟨⟨["a"], [((0 : Int), [Value.int 3]), ((1 : Int), [Value.int 4])]⟩,
        [["a"], ["3"], ["4"]]⟩ [0] = (⟨d, writeCsv d⟩, Except.ok d) ∧
      d.rows.length + 1 = 2 := by
  rcases delete_single ⟨⟨["a"], [((0 : Int), [Value.int 3]), ((1 : Int), [Value.int 4])]⟩,
      [["a"], ["3"], ["4"]]⟩ 0 (by decide) (by decide) with ⟨df', heq, -, hlen, -⟩
  exact ⟨df', heq, hlen⟩

/-- C6: if any requested index is absent from the current table, the whole
`delete` call fails with `IndexOutOfRangeError` identifying an offending
requested index, and no updated table is returned. -/
theorem delete_bad_index (s : Store) (idxs : List Int)
    (h : ∃ i ∈ idxs, i ∉ labels s.df) :
    ∃ j ∈ idxs, (deleteRun s idxs).2 = Except.error (DBError.indexOutOfRange j) := by
  rcases dropLoop_err_of_absent idxs s.df.rows h with ⟨j, hj, hres⟩
  refine ⟨j, hj, ?_⟩
  unfold deleteRun
  rcases hD : dropLoop s.df.rows idxs with ⟨rows', o⟩
  rw [hD] at hres
  simp only at hres
  subst hres
  rfl

theorem delete_bad_index_witness :
    ∃ j ∈ [(5 : Int)],
      (deleteRun ⟨⟨["a"], [((0 : Int), [Value.int 3])]⟩, [["a"], ["3"]]⟩ [5]).2
        = Except.error (DBError.indexOutOfRange j) :=
  delete_bad_index ⟨⟨["a"], [((0 : Int), [Value.int 3])]⟩, [["a"], ["3"]]⟩ [5]
    (by decide)

/-- C7: `filter(columnName, value)` leaves the store untouched and returns
exactly the rows whose value at `columnName` compares `==` to `value`,
under type-sensitive equality — an integer cell never matches a string
value; an absent column raises `KeyNotFoundError`. -/
theorem filter_spec (s : Store) (k : String) (v : Value) :
    (filterRun s k v).1 = s ∧
    (k ∈ s.df.cols →
      ∃ dff, (filterRun s k v).2 = Except.ok dff ∧ dff.cols = s.df.cols ∧
        ∀ r : Row, r ∈ dff.rows ↔
          (r ∈ s.df.rows ∧ pyEq (cellVal s.df r k) v = true)) ∧
    (k ∉ s.df.cols → (filterRun s k v).2 = Except.error (DBError.keyNotFound k)) ∧
    (∀ n : Int, ∀ m : String, pyEq (Value.int n) (Value.str m) = false) := by
  refine ⟨rfl, fun hk => ?_, fun hk => ?_, fun n m => rfl⟩
  · refine ⟨⟨s.df.cols, s.df.rows.filter (fun r => pyEq (cellVal s.df r k) v)⟩,
      ?_, rfl, ?_⟩
    · simp [filterRun, get_filtered_dataframe_with_key, hk]
    · intro r
      simp [List.mem_filter]
  · simp [filterRun, get_filtered_dataframe_with_key, hk]

theorem filter_spec_witness :
    ∃ dff,
      (filterRun ⟨⟨["a"], [((0 : Int), [Value.int 1]), ((1 : Int), [Value.str "1"])]⟩, []⟩
          "a" (Value.int 1)).2 = Except.ok dff ∧
        dff.cols = ["a"] ∧
        ∀ r : Row, r ∈ dff.rows ↔
          (r ∈ [((0 : Int), [Value.int 1]), ((1 : Int), [Value.str "1"])] ∧
            pyEq (cellVal ⟨["a"], [((0 : Int), [Value.int 1]), ((1 : Int), [Value.str "1"])]⟩
              r "a") (Value.int 1) = true) :=
  (filter_spec ⟨⟨["a"], [((0 : Int), [Value.int 1]), ((1 : Int), [Value.str "1"])]⟩, []⟩
    "a" (Value.int 1)).2.1 (by decide)

/-- C8: `update(i, k, v)` with a present row identifier `i` and a column
`k` succeeds, changing exactly the cell at `(i, k)` to `v`: the column
list, the row count, the labels and their order are unchanged, every row
with a different label is unchanged, and in the targeted row every other
cell is unchanged; afterwards `filter(k, v)` includes the row labelled
`i`; the full file is rewritten from the updated table, which is
returned. -/
theorem update_valid (s : Store) (i : Int) (k : String) (v : Value)
    (hi : i ∈ labels s.df) (hk : k ∈ s.df.cols)
    (hshape : ∀ r ∈ s.df.rows, r.2.length = s.df.cols.length) :
    ∃ df', updateRun s i k v = (⟨df', writeCsv df'⟩, Except.ok df') ∧
      df'.cols = s.df.cols ∧
      df'.rows.length = s.df.rows.length ∧
      df'.rows.map Prod.fst = s.df.rows.map Prod.fst ∧
      (∀ p : Nat, p < s.df.rows.length →
        ((s.df.rows.getD p ((0 : Int), [])).1 ≠ i →
          df'.rows.getD p ((0 : Int), []) = s.df.rows.getD p ((0 : Int), [])) ∧
        ((s.df.rows.getD p ((0 : Int), [])).1 = i →
          (df'.rows.getD p ((0 : Int), [])).1 = (s.df.rows.getD p ((0 : Int), [])).1 ∧
          (df'.rows.getD p ((0 : Int), [])).2.getD (colIndex s.df k) (Value.str "") = v ∧
          ∀ j : Nat, j ≠ colIndex s.df k →
            (df'.rows.getD p ((0 : Int), [])).2.getD j (Value.str "") =
              (s.df.rows.getD p ((0 : Int), [])).2.getD j (Value.str ""))) ∧
      ∃ dff, get_filtered_dataframe_with_key df' k v = Except.ok dff ∧
        ∃ r ∈ dff.rows, r.1 = i := by
  have hcolIdx : colIndex s.df k < s.df.cols.length :=
    List.indexOf_lt_length.mpr hk
  have hlen0 : ¬ ((labels s.df).length = 0) := by
    intro h0
    rw [List.length_eq_zero] at h0
    rw [h0] at hi
    cases hi
  have hrun : updateRun s i k v =
      (⟨setCell s.df i k v, writeCsv (setCell s.df i k v)⟩,
       Except.ok (setCell s.df i k v)) := by
    unfold updateRun
    rw [if_neg hlen0,
      if_neg (not_not_intro ⟨listMin_le_of_mem hi, le_listMax_of_mem hi⟩),
      if_neg (not_not_intro hk)]
  have hgetD : ∀ p : Nat, p < s.df.rows.length →
      (setCell s.df i k v).rows.getD p ((0 : Int), []) =
        (if (s.df.rows.getD p ((0 : Int), [])).1 = i then
          ((s.df.rows.getD p ((0 : Int), [])).1,
            (s.df.rows.getD p ((0 : Int), [])).2.set (colIndex s.df k) v)
        else s.df.rows.getD p ((0 : Int), [])) := by
    intro p hp
    simp [setCell, List.getD_eq_getElem?_getD, List.getElem?_eq_getElem hp]
  refine ⟨setCell s.df i k v, hrun, rfl, by simp [setCell], ?_, ?_, ?_⟩
  · simp only [setCell]
    rw [List.map_map]
    apply List.map_congr_left
    intro r _
    by_cases hri : r.1 = i <;> simp [hri]
  · intro p hp
    have hmemp : s.df.rows.getD p ((0 : Int), []) ∈ s.df.rows := by
      rw [List.getD_eq_getElem?_getD, List.getElem?_eq_getElem hp]
      exact List.getElem_mem hp
    constructor
    · intro hne
      rw [hgetD p hp, if_neg hne]
    · intro heq
      rw [hgetD p hp, if_pos heq]
      have hlenp : (s.df.rows.getD p ((0 : Int), [])).2.length = s.df.cols.length :=
        hshape _ hmemp
      refine ⟨rfl, ?_, fun j hj => ?_⟩
      · show ((s.df.rows.getD p ((0 : Int), [])).2.set (colIndex s.df k) v).getD
          (colIndex s.df k) (Value.str "") = v
        rw [List.getD_eq_getElem?_getD,
          List.getElem?_set_self (by rw [hlenp]; exact hcolIdx)]
        rfl
      · show ((s.df.rows.getD p ((0 : Int), [])).2.set (colIndex s.df k) v).getD
          j (Value.str "") = (s.df.rows.getD p ((0 : Int), [])).2.getD j (Value.str "")
        rw [List.getD_eq_getElem?_getD, List.getElem?_set_ne (Ne.symm hj),
          ← List.getD_eq_getElem?_getD]
  · rcases List.mem_map.mp hi with ⟨r, hr, hfst⟩
    have hlenr : r.2.length = s.df.cols.length := hshape r hr
    have hmem' : (r.1, r.2.set (colIndex s.df k) v) ∈ (setCell s.df i k v).rows :=
      List.mem_map.mpr ⟨r, hr, by simp [hfst]⟩
    have hcell : cellVal (setCell s.df i k v) (r.1, r.2.set (colIndex s.df k) v) k = v := by
      show (r.2.set (colIndex s.df k) v).getD (colIndex (setCell s.df i k v) k)
          (Value.str "") = v
      have : colIndex (setCell s.df i k v) k = colIndex s.df k := rfl
      rw [this, List.getD_eq_getElem?_getD,
        List.getElem?_set_self (by rw [hlenr]; exact hcolIdx)]
      rfl
    refine ⟨⟨s.df.cols, (setCell s.df i k v).rows.filter
        (fun r' => pyEq (cellVal (setCell s.df i k v) r' k) v)⟩, ?_,
      (r.1, r.2.set (colIndex s.df k) v), ?_, hfst⟩
    · have hk' : k ∈ (setCell s.df i k v).cols := hk
      unfold get_filtered_dataframe_with_key
      rw [if_pos hk']
      rfl
    · exact List.mem_filter.mpr ⟨hmem', by rw [hcell]; exact pyEq_refl v⟩

theorem update_valid_witness :
    ∃ d, updateRun ⟨⟨["a", "b"], [((0 : Int), [Value.int 1, Value.str "x"])]⟩,
        [["a", "b"], ["1", "x"]]⟩ 0 "b" (Value.str "y")
      = (⟨d, writeCsv d⟩, Except.ok d) ∧
      ∃ dff, get_filtered_dataframe_with_key d "b" (Value.str "y") = Except.ok dff ∧
        ∃ r ∈ dff.rows, r.1 = 0 := by
  rcases update_valid ⟨⟨["a", "b"], [((0 : Int), [Value.int 1, Value.str "x"])]⟩,
      [["a", "b"], ["1", "x"]]⟩ 0 "b" (Value.str "y")
      (by decide) (by decide) (by decide) with ⟨d, hrun, -, -, -, -, hfilt⟩
  exact ⟨d, hrun, hfilt⟩

/-- C10: `delete()` with zero row indices succeeds: the loop body never
runs, the index is reset (a no-op on the contiguous labels every operation
maintains), the file is rewritten from the unchanged table, and the
unchanged table is returned. -/
theorem delete_no_args (s : Store)
    (hlab : labels s.df = (List.range s.df.rows.length).map Int.ofNat) :
    deleteRun s [] = (⟨s.df, writeCsv s.df⟩, Except.ok s.df) := by
  have hrows : relabel (s.df.rows.map Prod.snd) = s.df.rows := by
    unfold relabel
    rw [List.length_map, ← hlab]
    exact zip_fst_snd s.df.rows
  simp [deleteRun, dropLoop, hrows]

/-- C1: for a field mapping whose key set equals the column set, `insert`
(`register`) appends exactly one new row equal to the mapping at the last
position, aligned to the column order of the table; the row count grows by 1,
the labels become 0,...,n, the full table is written to the file, and the
updated table is returned. -/
theorem register_appends (s : Store) (fields : List (String × Value))
    (hkeys : ∀ x, (x ∈ fields.map Prod.fst ↔ x ∈ s.df.cols))
    (hnd : (fields.map Prod.fst).Nodup) :
    ∃ df', registerRun s fields = (⟨df', writeCsv df'⟩, Except.ok df') ∧
      df'.cols = s.df.cols ∧
      df'.rows.length = s.df.rows.length + 1 ∧
      df'.rows.map Prod.fst = (List.range (s.df.rows.length + 1)).map Int.ofNat ∧
      ∃ nr : List Value,
        df'.rows.map Prod.snd = s.df.rows.map Prod.snd ++ [nr] ∧
        ∀ p : String × Value, p ∈ s.df.cols.zip nr ↔ p ∈ fields := by
  have hk : keySetEq (fields.map Prod.fst) s.df.cols = true :=
    (keySetEq_eq_true_iff _ _).mpr
      ⟨fun k hkm => (hkeys k).mp hkm, fun c hc => (hkeys c).mpr hc⟩
  refine ⟨⟨s.df.cols, relabel (s.df.rows.map Prod.snd ++
      [s.df.cols.map (fun c => (lookupKey c fields).getD (Value.str ""))])⟩,
    by simp [registerRun, register, hk], rfl, ?_, ?_,
    s.df.cols.map (fun c => (lookupKey c fields).getD (Value.str "")),
    relabel_map_snd _, fun p => ?_⟩
  · simp [relabel_length]
  · rw [relabel_map_fst]
    congr 2
    simp
  · rw [← List.map_prod_left_eq_zip]
    constructor
    · intro hp
      rcases List.mem_map.mp hp with ⟨c, hc, hcp⟩
      rcases lookupKey_isSome_of_mem ((hkeys c).mpr hc) with ⟨v, hv⟩
      have : p = (c, v) := by rw [← hcp, hv]; rfl
      exact this ▸ mem_of_lookupKey_eq_some hv
    · intro hp
      obtain ⟨k, v⟩ := p
      have hkc : k ∈ s.df.cols :=
        (hkeys k).mp (List.mem_map.mpr ⟨(k, v), hp, rfl⟩)
      have hlk : lookupKey k fields = some v := lookupKey_eq_some_of_mem hnd hp
      exact List.mem_map.mpr ⟨k, hkc, by rw [hlk]; rfl⟩

theorem register_appends_witness :
    ∃ d, (registerRun ⟨⟨["a", "b"], []⟩, [["a", "b"]]⟩
        [("b", Value.str "x"), ("a", Value.int 1)]).2 = Except.ok d ∧
      d.rows.length = 1 := by
  rcases register_appends ⟨⟨["a", "b"], []⟩, [["a", "b"]]⟩
      [("b", Value.str "x"), ("a", Value.int 1)]
      (by intro x; simp; tauto) (by decide) with ⟨df', heq, -, hlen, -⟩
  exact ⟨df', by rw [heq], hlen⟩

theorem delete_no_args_witness :
    deleteRun ⟨⟨["a"], [((0 : Int), [Value.int 3])]⟩, [["a"], ["3"]]⟩ []
      = (⟨⟨["a"], [((0 : Int), [Value.int 3])]⟩, [["a"], ["3"]]⟩,
         Except.ok ⟨["a"], [((0 : Int), [Value.int 3])]⟩) :=
  delete_no_args ⟨⟨["a"], [((0 : Int), [Value.int 3])]⟩, [["a"], ["3"]]⟩ (by decide)

end CsvDb
